import Mathlib

/-!
Verification of the time-windowed aggregation engine of guotie/go-metrics.

The Go sources are shallowly embedded: Go maps become association lists over
`String` keys (lookup of a missing key yields the zero value via `Option.getD`,
matching Go map semantics), `time.Duration` and `time.Time` become `Int`
nanoseconds (with `.Unix()` modelled as truncated division by 10^9, matching
Go's truncating integer division via `Int.tdiv`), `float64` arithmetic on
rates/values is modelled as exact rational arithmetic (`ℚ`), and Go `panic`
becomes an `Option`/`none` result.  Each stateful method becomes a pure
function from the receiver state (plus the current wall-clock instant, which
Go reads via `time.Now()`) to a result and an updated state.
-/

namespace AL

/-- Association-list model of a Go `map[string]V`: lookup of the first
matching key. -/
def lookup {α : Type} : List (String × α) → String → Option α
  | [], _ => none
  | (k', v) :: t, k => if k' = k then some v else lookup t k

/-- Association-list model of Go map assignment `m[k] = v`: replace in place
if the key exists, otherwise add it. -/
def insert {α : Type} : List (String × α) → String → α → List (String × α)
  | [], k, v => [(k, v)]
  | (k', v') :: t, k, v => if k' = k then (k, v) :: t else (k', v') :: insert t k v

/-- Association-list model of Go `delete(m, k)`. -/
def eraseKey {α : Type} (m : List (String × α)) (k : String) : List (String × α) :=
  m.filter (fun kv => !(kv.1 == k))

/-- Key list of an association-list map. -/
def keys {α : Type} (m : List (String × α)) : List String :=
  m.map Prod.fst

theorem lookup_insert_self {α : Type} (m : List (String × α)) (k : String) (v : α) :
    lookup (insert m k v) k = some v := by
  induction m with
  | nil => simp [insert, lookup]
  | cons hd t ih =>
    by_cases h : hd.1 = k
    · simp [insert, h, lookup]
    · simp [insert, h, lookup, ih]

theorem lookup_insert_of_ne {α : Type} (m : List (String × α)) (k k' : String) (v : α)
    (h : k ≠ k') : lookup (insert m k v) k' = lookup m k' := by
  induction m with
  | nil => simp [insert, lookup, h]
  | cons hd t ih =>
    by_cases hh : hd.1 = k
    · have hd' : ¬hd.1 = k' := by rw [hh]; exact h
      simp only [insert, if_pos hh, lookup, if_neg h, if_neg hd']
    · simp only [insert, if_neg hh, lookup]
      by_cases hk : hd.1 = k'
      · rw [if_pos hk, if_pos hk]
      · rw [if_neg hk, if_neg hk]
        exact ih

theorem lookup_eq_none_of_not_mem_keys {α : Type} (m : List (String × α)) (k : String)
    (h : k ∉ keys m) : lookup m k = none := by
  induction m with
  | nil => simp [lookup]
  | cons hd t ih =>
    simp only [keys, List.map_cons, List.mem_cons] at h
    push_neg at h
    simp only [lookup]
    rw [if_neg (fun hh : hd.1 = k => h.1 hh.symm)]
    exact ih h.2

theorem mem_keys_insert {α : Type} (m : List (String × α)) (k a : String) (v : α) :
    a ∈ keys (insert m k v) ↔ a = k ∨ a ∈ keys m := by
  induction m with
  | nil => simp [insert, keys]
  | cons hd t ih =>
    by_cases h : hd.1 = k
    · subst h
      simp only [insert, if_true]
      simp only [keys, List.map_cons, List.mem_cons]
      tauto
    · simp only [insert, if_neg h, keys, List.map_cons, List.mem_cons]
      rw [show ((insert t k v).map Prod.fst : List String) = keys (insert t k v) from rfl,
          show (t.map Prod.fst : List String) = keys t from rfl, ih]
      tauto

end AL

/-! Durations, in nanoseconds, mirroring Go's `time.Minute`, `time.Hour`,
`m5 = time.Minute*5`, ..., `d1 = time.Hour*24` from the sources. -/

def secondNs : Int := 1000000000

def minuteNs : Int := 60 * secondNs

def m5ns : Int := 5 * minuteNs

def m15ns : Int := 15 * minuteNs

def m30ns : Int := 30 * minuteNs

def hourNs : Int := 60 * minuteNs

def dayNs : Int := 24 * hourNs

/-- Modelled from the spec: the repository's day-boundary helper
`days.Tomorrow` comes from the external module `github.com/guotie/days`,
whose code is not part of this repository.  Per the spec it returns
"local-calendar midnight of the following day (explicit timezone
correction)".  We model a wall-clock instant as a Unix-seconds value `unix`
together with the local timezone offset `off` in seconds east of UTC; local
midnight of the following calendar day then sits at the next multiple of
86400 of the local-seconds value, translated back to Unix seconds. -/
def daysTomorrowUnix (unix off : Int) : Int :=
  unix - (unix + off) % 86400 + 86400

/-- StandardPeriodCounter state (src/peroid_counter.go): a running total plus,
per period label, the registered window duration (ns), the baseline count at
the last accepted boundary, and the next boundary timestamp in Unix seconds.
The `lastSnap`/`minPeriod` fields used only by the second variant's
`Snapshot` gate are not touched by any claim and are omitted. -/
structure StandardPeriodCounter where
  count : Int
  periods : List (String × Int)
  latestCounts : List (String × Int)
  nextTs : List (String × Int)

/-- Translation of `StandardPeriodCounter.getPeriodCountRate` (identical in
both variants of src/peroid_counter.go, lines 202-221 and 493-512).  `ts` is
Unix seconds.  The Go float64 rate `float64(dcount) / float64(du/time.Second)`
is modelled as the exact rational `dcount / (du div 10^9)`. -/
def getPeriodCountRate (pc : StandardPeriodCounter) (period : String) (ts : Int) :
    (Int × ℚ) × StandardPeriodCounter :=
  match AL.lookup pc.periods period with
  | none => ((-1, -1), pc)
  | some du =>
    let nextTs := (AL.lookup pc.nextTs period).getD 0
    if ts < nextTs then ((-1, -1), pc)
    else
      let duSec := Int.tdiv du 1000000000
      let dcount := pc.count - (AL.lookup pc.latestCounts period).getD 0
      ((dcount, (dcount : ℚ) / (duSec : ℚ)),
       { pc with
          nextTs := AL.insert pc.nextTs period (nextTs + duSec),
          latestCounts := AL.insert pc.latestCounts period pc.count })

/-- Translation of the first variant's `setPeriod` (src/peroid_counter.go
lines 254-286): zero duration deletes the registration; an existing label is
a no-op; otherwise the next boundary is `nts - nts%mod + mod` in Unix seconds
with `mod` selected by the duration (60 by default; 300/900/1800/3600/86400
for the special durations; the `m60`/`h1` cases are both `time.Hour`). -/
def pcSetPeriodV1 (pc : StandardPeriodCounter) (p : String) (du : Int) (nts : Int) :
    StandardPeriodCounter :=
  if du = 0 then
    { pc with periods := AL.eraseKey pc.periods p, nextTs := AL.eraseKey pc.nextTs p }
  else if (AL.lookup pc.periods p).isSome then pc
  else
    let m : Int :=
      if du = m5ns then 300
      else if du = m15ns then 900
      else if du = m30ns then 1800
      else if du = hourNs then 3600
      else if du = dayNs then 86400
      else 60
    { pc with
        periods := AL.insert pc.periods p du,
        nextTs := AL.insert pc.nextTs p (nts - Int.tmod nts m + m) }

/-- Translation of the second variant's `setPeriod` (src/peroid_counter.go
lines 551-588): as `pcSetPeriodV1`, except that the reference instant is a
`time.Time` (modelled as Unix seconds plus timezone offset) and a 1-day
duration is aligned via `days.Tomorrow` instead of the plain modulus. -/
def pcSetPeriodV2 (pc : StandardPeriodCounter) (p : String) (du : Int)
    (tmUnix tmOff : Int) : StandardPeriodCounter :=
  if du = 0 then
    { pc with periods := AL.eraseKey pc.periods p, nextTs := AL.eraseKey pc.nextTs p }
  else if (AL.lookup pc.periods p).isSome then pc
  else
    let m : Int :=
      if du = m5ns then 300
      else if du = m15ns then 900
      else if du = m30ns then 1800
      else if du = hourNs then 3600
      else if du = dayNs then 86400
      else 60
    let nts :=
      if du = dayNs then daysTomorrowUnix tmUnix tmOff
      else tmUnix - Int.tmod tmUnix m + m
    { pc with
        periods := AL.insert pc.periods p du,
        nextTs := AL.insert pc.nextTs p nts }

/-! ConditionalValue (src/cond.go).  `value` is the stored scalar,
`period` the gate duration in nanoseconds, `lastSnap` the instant (ns)
of the last accepted snapshot. -/

/-- StandardCondInt state (src/cond.go lines 53-57). -/
structure StandardCondInt where
  value : Int
  period : Int
  lastSnap : Int

/-- Translation of `StandardCondInt.Snapshot` (src/cond.go lines 60-67):
if `now - lastSnap >= period`, stamp `lastSnap := now` and return the value
flagged writable; otherwise return the value flagged non-writable with the
state untouched. -/
def condIntSnapshot (g : StandardCondInt) (now : Int) :
    (Int × Bool) × StandardCondInt :=
  if g.period ≤ now - g.lastSnap then
    ((g.value, true), { g with lastSnap := now })
  else
    ((g.value, false), g)

/-- Translation of `StandardCondInt.Writable` (src/cond.go lines 70-72):
a pure read, no state change. -/
def condIntWritable (g : StandardCondInt) (now : Int) : Bool :=
  decide (g.period ≤ now - g.lastSnap)

/-- Translation of `StandardCondInt.Update` (src/cond.go lines 75-77). -/
def condIntUpdate (g : StandardCondInt) (v : Int) : StandardCondInt :=
  { g with value := v }

/-- StandardCondFloat state (src/cond.go lines 134-139); the float64 value
is modelled as a rational. -/
structure StandardCondFloat where
  value : ℚ
  period : Int
  lastSnap : Int

/-- Translation of `StandardCondFloat.Snapshot` (src/cond.go lines 142-149). -/
def condFloatSnapshot (g : StandardCondFloat) (now : Int) :
    (ℚ × Bool) × StandardCondFloat :=
  if g.period ≤ now - g.lastSnap then
    ((g.value, true), { g with lastSnap := now })
  else
    ((g.value, false), g)

/-- Translation of `StandardCondFloat.Writable` (src/cond.go lines 152-154). -/
def condFloatWritable (g : StandardCondFloat) (now : Int) : Bool :=
  decide (g.period ≤ now - g.lastSnap)

/-- Translation of `StandardCondFloat.Update` (src/cond.go lines 157-161). -/
def condFloatUpdate (g : StandardCondFloat) (v : ℚ) : StandardCondFloat :=
  { g with value := v }

/-! StandardDataMap (src/datamap.go). -/

/-- Scalar value stored in a data map's `values` / `valuesHistory`
(Go `interface{}` holding an `int64` or a `float64`). -/
inductive GoVal : Type
  | i64 (v : Int)
  | f64 (v : ℚ)
deriving DecidableEq

/-- Registered result type of a key (`reflect.Type` tag): the two tags the
engine routes (`condIntType`, `condFloatType`) and everything else, which
`generateMeter` turns into a printed message and a nil meter. -/
inductive KType : Type
  | condIntT
  | condFloatT
  | otherT
deriving DecidableEq

/-- Read-only view of a data map handed to dependent-variable functions.
In Go the function receives the live `*StandardDataMap` (under the caller's
lock) and reads it through `Value`/`ValueInt64`/`ValueFloat64`/`ValueHistory`;
those reads only touch `values` and `valuesHistory`, so the view carries
exactly those two tables. -/
structure DMView where
  values : List (String × GoVal)
  valuesHistory : List (String × List (String × GoVal))

/-- Dependent-variable function, the closed variant set admitted by
`SetDependentVar` (src/datamap.go lines 484-500): an int64-valued or a
float64-valued function of the store. -/
inductive DepFn : Type
  | intFn (f : DMView → Int)
  | floatFn (f : DMView → ℚ)

/-- DependentVar record (src/datamap.go lines 51-57); `period` and
`lastSnap` in nanoseconds. -/
structure DependentVar where
  fn : DepFn
  typ : KType
  period : Int
  lastSnap : Int

/-- Instrument-update descriptor produced by `generateMeter`: a conditional
int/float instrument named `prefix+"-"+key` carrying the routed value.  The
registry side of `GetOrRegisterCondInt/CondFloat` is external to the store;
the descriptor records what the store hands it. -/
inductive Desc : Type
  | condInt (name : String) (v : Int)
  | condFloat (name : String) (v : ℚ)

/-- StandardDataMap state (src/datamap.go lines 151-171).  `minInterval`,
`latestSnapshot`, `keyPeriod` in nanoseconds; `nextTs` in Unix seconds;
the `prefix` string field only decorates descriptor names and is omitted
(descriptors are named by key). -/
structure StandardDataMap where
  minInterval : Int
  latestSnapshot : Int
  values : List (String × GoVal)
  valuesHistory : List (String × List (String × GoVal))
  keyTypes : List (String × KType)
  keyPeriod : Int
  dependentVars : List (String × DependentVar)
  periods : List (String × Int)
  nextTs : List (String × Int)

/-- Translation of `StandardDataMap.UpdateInt64` (src/datamap.go lines
399-405): last-write-wins on `values[key]`. -/
def dmUpdateInt64 (g : StandardDataMap) (key : String) (v : Int) : StandardDataMap :=
  { g with values := AL.insert g.values key (GoVal.i64 v) }

/-- Translation of `StandardDataMap.UpdateFloat64` (src/datamap.go lines
408-413). -/
def dmUpdateFloat64 (g : StandardDataMap) (key : String) (v : ℚ) : StandardDataMap :=
  { g with values := AL.insert g.values key (GoVal.f64 v) }

/-- Translation of `StandardDataMap.Value` (src/datamap.go lines 417-419):
Go map read of an `interface{}` value, `none` standing for Go's nil. -/
def dmValue (g : StandardDataMap) (key : String) : Option GoVal :=
  AL.lookup g.values key

/-- Translation of `StandardDataMap.ValueInt64` (src/datamap.go lines
423-429): a missing key yields 0; a present value is forced to int64 by a
type assertion, whose failure (the value is a float64) is a panic, modelled
as `none`. -/
def dmValueInt64 (g : StandardDataMap) (key : String) : Option Int :=
  match AL.lookup g.values key with
  | none => some 0
  | some (GoVal.i64 v) => some v
  | some (GoVal.f64 _) => none

/-- Translation of `StandardDataMap.ValueFloat64` (src/datamap.go lines
433-439). -/
def dmValueFloat64 (g : StandardDataMap) (key : String) : Option ℚ :=
  match AL.lookup g.values key with
  | none => some 0
  | some (GoVal.f64 v) => some v
  | some (GoVal.i64 _) => none

/-- Translation of `StandardDataMap.ValueHistory` (src/datamap.go lines
443-449): if the period has a history table, return its entry for `key`
(nil if the key is absent) with `found = true`; otherwise `(nil, false)`. -/
def dmValueHistory (g : StandardDataMap) (key period : String) :
    Option GoVal × Bool :=
  match AL.lookup g.valuesHistory period with
  | some his => (AL.lookup his key, true)
  | none => (none, false)

/-- Translation of `StandardDataMap.setPeriod` (src/datamap.go lines
340-380): zero duration panics (`none`); an existing label is a no-op;
otherwise the next boundary in Unix seconds is `days.Tomorrow` for a 1-day
duration and the plain modulus alignment for every other duration (modulus
1 below one minute, 60 by default). -/
def dmSetPeriod (g : StandardDataMap) (p : String) (du : Int)
    (tmUnix tmOff : Int) : Option StandardDataMap :=
  if du = 0 then none
  else if (AL.lookup g.periods p).isSome then some g
  else
    let m : Int :=
      if du = m5ns then 300
      else if du = m15ns then 900
      else if du = m30ns then 1800
      else if du = hourNs then 3600
      else if du = dayNs then 86400
      else if du < minuteNs then 1
      else 60
    let nts :=
      if du = dayNs then daysTomorrowUnix tmUnix tmOff
      else tmUnix - Int.tmod tmUnix m + m
    some { g with
            periods := AL.insert g.periods p du,
            nextTs := AL.insert g.nextTs p nts }

/-- Copy loop `for k, v := range g.values { his[k] = v }` of
`updateHistory`. -/
def copyInto (his : List (String × GoVal)) (l : List (String × GoVal)) :
    List (String × GoVal) :=
  l.foldl (fun h kv => AL.insert h kv.1 kv.2) his

/-- Translation of the `for p, nts := range g.nextTs` loop of
`StandardDataMap.updateHistory` (src/datamap.go lines 287-312), iterating
over the entry list of `nextTs`: for every period whose boundary has passed
(`ts >= nts`), copy the whole `values` table into that period's history slot
(creating it if absent) and push the boundary forward by exactly one duration;
a boundary whose period is missing from `periods` panics (`none`).  The loop
only rewrites the visited entry's own value, so iterating the pre-loop entry
list is faithful to the Go range loop. -/
def updateHistoryGo (g : StandardDataMap) (ts : Int) :
    List (String × Int) → Option StandardDataMap
  | [] => some g
  | (p, nts) :: rest =>
    if nts ≤ ts then
      match AL.lookup g.periods p with
      | none => none
      | some du =>
        let his := (AL.lookup g.valuesHistory p).getD []
        let g' := { g with
                      valuesHistory := AL.insert g.valuesHistory p (copyInto his g.values),
                      nextTs := AL.insert g.nextTs p (nts + Int.tdiv du 1000000000) }
        updateHistoryGo g' ts rest
    else
      updateHistoryGo g ts rest

/-- Translation of `StandardDataMap.updateHistory` (src/datamap.go lines
287-312); `ts` is Unix seconds. -/
def updateHistory (g : StandardDataMap) (ts : Int) : Option StandardDataMap :=
  updateHistoryGo g ts g.nextTs

/-- Independent-variable branch of `StandardDataMap.generateMeter`
(src/datamap.go lines 232-283, `dependent = false`): route the stored value
by the key's registered type tag; a tag/value mismatch is the failed
`val.(int64)` / `val.(float64)` type assertion, a panic (`none`); an
unrecognized tag prints a message and returns a nil meter (`some none`). -/
def genMeterIndep (key : String) (val : GoVal) (typ : KType) :
    Option (Option Desc) :=
  match typ, val with
  | KType.condIntT, GoVal.i64 v => some (some (Desc.condInt key v))
  | KType.condIntT, GoVal.f64 _ => none
  | KType.condFloatT, GoVal.f64 v => some (some (Desc.condFloat key v))
  | KType.condFloatT, GoVal.i64 _ => none
  | KType.otherT, _ => some none

/-- Dependent-variable branch of `StandardDataMap.generateMeter`
(`dependent = true`): first evaluate the function against the store, then
route the result by the declared type tag as in the independent branch. -/
def genMeterDep (key : String) (fn : DepFn) (view : DMView) (typ : KType) :
    Option (Option Desc) :=
  match fn with
  | DepFn.intFn f => genMeterIndep key (GoVal.i64 (f view)) typ
  | DepFn.floatFn f => genMeterIndep key (GoVal.f64 (f view)) typ

/-- Independent-key loop of `StandardDataMap.Snapshot` (src/datamap.go lines
203-212): for every typed key whose value is present, append the generated
meter (possibly a nil meter) to the batch. -/
def metersIndep (g : StandardDataMap) :
    List (String × KType) → Option (List (Option Desc))
  | [] => some []
  | (k, t) :: rest =>
    match AL.lookup g.values k with
    | none => metersIndep g rest
    | some val =>
      match genMeterIndep k val t with
      | none => none
      | some d => (metersIndep g rest).map (fun ds => d :: ds)

/-- Dependent-variable loop of `StandardDataMap.Snapshot` (src/datamap.go
lines 216-224): each dependent variable whose own period has elapsed since
its `lastSnap` is evaluated, its meter appended and its `lastSnap` stamped
to now; the rest are left untouched. -/
def metersDep (view : DMView) (now : Int) :
    List (String × DependentVar) →
    Option (List (Option Desc) × List (String × DependentVar))
  | [] => some ([], [])
  | (k, dv) :: rest =>
    if dv.period ≤ now - dv.lastSnap then
      match genMeterDep k dv.fn view dv.typ with
      | none => none
      | some d =>
        (metersDep view now rest).map
          (fun r => (d :: r.1, (k, { dv with lastSnap := now }) :: r.2))
    else
      (metersDep view now rest).map (fun r => (r.1, (k, dv) :: r.2))

/-- Translation of `StandardDataMap.Snapshot` (src/datamap.go lines 192-229)
at wall-clock instant `now` (nanoseconds; `time.Now().Unix()` is
`Int.tdiv now 10^9`).  The `snapshotable` gate (lines 179-187) admits the
call only when strictly more than `minInterval` has elapsed since
`latestSnapshot`, stamping `latestSnapshot` on admission; a throttled call
returns Go nil, modelled as the empty batch (the admitted path builds the
batch purely by appends, so an empty batch and Go's nil slice coincide).
The outer `none` is a panic escaping from `generateMeter` or
`updateHistory`. -/
def dmSnapshot (g : StandardDataMap) (now : Int) :
    Option (List (Option Desc) × StandardDataMap) :=
  if g.minInterval < now - g.latestSnapshot then
    match metersIndep { g with latestSnapshot := now } g.keyTypes with
    | none => none
    | some ms1 =>
      match metersDep ⟨g.values, g.valuesHistory⟩ now g.dependentVars with
      | none => none
      | some (ms2, dvs) =>
        match updateHistory { g with latestSnapshot := now, dependentVars := dvs }
            (Int.tdiv now 1000000000) with
        | none => none
        | some g3 => some (ms1 ++ ms2, g3)
  else some ([], g)

/-! Helper lemmas for `getPeriodCountRate`. -/

theorem gpcr_unknown (pc : StandardPeriodCounter) (p : String) (ts : Int)
    (h : AL.lookup pc.periods p = none) :
    getPeriodCountRate pc p ts = ((-1, -1), pc) := by
  unfold getPeriodCountRate
  rw [h]

theorem gpcr_early (pc : StandardPeriodCounter) (p : String) (ts du : Int)
    (h : AL.lookup pc.periods p = some du)
    (hlt : ts < (AL.lookup pc.nextTs p).getD 0) :
    getPeriodCountRate pc p ts = ((-1, -1), pc) := by
  unfold getPeriodCountRate
  rw [h]
  dsimp only
  rw [if_pos hlt]

theorem gpcr_hit (pc : StandardPeriodCounter) (p : String) (ts du : Int)
    (h : AL.lookup pc.periods p = some du)
    (hge : (AL.lookup pc.nextTs p).getD 0 ≤ ts) :
    getPeriodCountRate pc p ts =
      ((pc.count - (AL.lookup pc.latestCounts p).getD 0,
        ((pc.count - (AL.lookup pc.latestCounts p).getD 0 : Int) : ℚ) /
          ((Int.tdiv du 1000000000 : Int) : ℚ)),
       { pc with
          nextTs := AL.insert pc.nextTs p
            ((AL.lookup pc.nextTs p).getD 0 + Int.tdiv du 1000000000),
          latestCounts := AL.insert pc.latestCounts p pc.count }) := by
  unfold getPeriodCountRate
  rw [h]
  dsimp only
  rw [if_neg (not_lt.mpr hge)]

/-- Claim C1: for every period label on a StandardPeriodCounter,
`LatestPeriodCountRate` returns the sentinel `(-1, -1.0)` when the label is
not in the periods map, returns the sentinel on any call made before the
label's next boundary timestamp, and — having advanced the boundary by one
duration on a successful call — returns the sentinel on a second call made
within the same aligned window, never a duplicate of the first result. -/
theorem c1_latest_period_count_rate_sentinel
    (pc : StandardPeriodCounter) (p : String) (ts ts' du : Int) :
    (AL.lookup pc.periods p = none → getPeriodCountRate pc p ts = ((-1, -1), pc))
    ∧ (AL.lookup pc.periods p = some du →
        ts < (AL.lookup pc.nextTs p).getD 0 →
        getPeriodCountRate pc p ts = ((-1, -1), pc))
    ∧ (AL.lookup pc.periods p = some du →
        (AL.lookup pc.nextTs p).getD 0 ≤ ts →
        ts' < (AL.lookup pc.nextTs p).getD 0 + Int.tdiv du 1000000000 →
        (getPeriodCountRate (getPeriodCountRate pc p ts).2 p ts').1 = (-1, -1)) := by
  refine ⟨fun h => gpcr_unknown pc p ts h, fun h hlt => gpcr_early pc p ts du h hlt,
    fun h hge hlt => ?_⟩
  rw [gpcr_hit pc p ts du h hge]
  have h2 : AL.lookup
      ({ pc with
          nextTs := AL.insert pc.nextTs p
            ((AL.lookup pc.nextTs p).getD 0 + Int.tdiv du 1000000000),
          latestCounts := AL.insert pc.latestCounts p pc.count } :
        StandardPeriodCounter).nextTs p =
      some ((AL.lookup pc.nextTs p).getD 0 + Int.tdiv du 1000000000) :=
    AL.lookup_insert_self _ _ _
  dsimp only
  rw [gpcr_early
    { pc with
        nextTs := AL.insert pc.nextTs p
          ((AL.lookup pc.nextTs p).getD 0 + Int.tdiv du 1000000000),
        latestCounts := AL.insert pc.latestCounts p pc.count }
    p ts' du (by exact h) (by rw [h2]; exact hlt)]

/-- Witness for C1 on a concrete counter: an unknown label, a call one second
before the boundary, and a same-window double call all produce the
sentinel. -/
theorem c1_witness :
    getPeriodCountRate ⟨30, [("1m", 60000000000)], [], [("1m", 300)]⟩ "5m" 300
        = ((-1, -1), ⟨30, [("1m", 60000000000)], [], [("1m", 300)]⟩)
    ∧ getPeriodCountRate ⟨30, [("1m", 60000000000)], [], [("1m", 300)]⟩ "1m" 299
        = ((-1, -1), ⟨30, [("1m", 60000000000)], [], [("1m", 300)]⟩)
    ∧ (getPeriodCountRate
        (getPeriodCountRate ⟨30, [("1m", 60000000000)], [], [("1m", 300)]⟩ "1m" 300).2
        "1m" 301).1 = (-1, -1) :=
  ⟨(c1_latest_period_count_rate_sentinel _ "5m" 300 300 0).1 (by decide),
   (c1_latest_period_count_rate_sentinel _ "1m" 299 299 60000000000).2.1
      (by decide) (by decide),
   (c1_latest_period_count_rate_sentinel _ "1m" 300 301 60000000000).2.2
      (by decide) (by decide) (by decide)⟩

/-- Claim C2: when `LatestPeriodCountRate` is called at or after the label's
next boundary, it returns `(delta, delta / (du in seconds))` with
`delta = count - latestCounts[label]` (baseline 0 when never set), stamps the
baseline `latestCounts[label]` to the current count, and advances
`nextTs[label]` by exactly one duration (single-stepping; it does not
fast-forward past the current time). -/
theorem c2_boundary_rollover
    (pc : StandardPeriodCounter) (p : String) (ts du : Int)
    (h : AL.lookup pc.periods p = some du)
    (hge : (AL.lookup pc.nextTs p).getD 0 ≤ ts) :
    getPeriodCountRate pc p ts =
      ((pc.count - (AL.lookup pc.latestCounts p).getD 0,
        ((pc.count - (AL.lookup pc.latestCounts p).getD 0 : Int) : ℚ) /
          ((Int.tdiv du 1000000000 : Int) : ℚ)),
       { pc with
          nextTs := AL.insert pc.nextTs p
            ((AL.lookup pc.nextTs p).getD 0 + Int.tdiv du 1000000000),
          latestCounts := AL.insert pc.latestCounts p pc.count })
    ∧ AL.lookup (getPeriodCountRate pc p ts).2.nextTs p =
        some ((AL.lookup pc.nextTs p).getD 0 + Int.tdiv du 1000000000)
    ∧ AL.lookup (getPeriodCountRate pc p ts).2.latestCounts p = some pc.count := by
  have hmain := gpcr_hit pc p ts du h hge
  refine ⟨hmain, ?_, ?_⟩
  · rw [hmain]
    exact AL.lookup_insert_self _ _ _
  · rw [hmain]
    exact AL.lookup_insert_self _ _ _

/-- Witness for C2: a 1-minute window with count 30 and no baseline, read at
its boundary 300, yields delta 30 and rate 30/60, stamps the baseline to 30
and moves the boundary to 360. -/
theorem c2_witness :
    getPeriodCountRate ⟨30, [("1m", 60000000000)], [], [("1m", 300)]⟩ "1m" 300
      = ((30, (30 : ℚ) / (60 : ℚ)),
         ⟨30, [("1m", 60000000000)], [("1m", 30)], [("1m", 360)]⟩)
    ∧ AL.lookup (getPeriodCountRate
        ⟨30, [("1m", 60000000000)], [], [("1m", 300)]⟩ "1m" 300).2.nextTs "1m"
        = some 360
    ∧ AL.lookup (getPeriodCountRate
        ⟨30, [("1m", 60000000000)], [], [("1m", 300)]⟩ "1m" 300).2.latestCounts "1m"
        = some 30 :=
  c2_boundary_rollover ⟨30, [("1m", 60000000000)], [], [("1m", 300)]⟩ "1m" 300
    60000000000 (by decide) (by decide)

/-- Claim C5: for both conditional scalars, `Snapshot` returns the current
value flagged writable and stamps `lastSnap := now` exactly when
`now - lastSnap ≥ period`, and otherwise returns the current value flagged
non-writable with the state untouched; `Writable` is a pure read that is true
iff `now - lastSnap ≥ period`; `Update` replaces the value and leaves
`lastSnap` (and the period) unchanged. -/
theorem c5_conditional_value
    (gi : StandardCondInt) (gf : StandardCondFloat) (now vI : Int) (vF : ℚ) :
    (gi.period ≤ now - gi.lastSnap →
        condIntSnapshot gi now = ((gi.value, true), { gi with lastSnap := now }))
    ∧ (¬gi.period ≤ now - gi.lastSnap →
        condIntSnapshot gi now = ((gi.value, false), gi))
    ∧ (condIntWritable gi now = true ↔ gi.period ≤ now - gi.lastSnap)
    ∧ condIntUpdate gi vI = { gi with value := vI }
    ∧ (gf.period ≤ now - gf.lastSnap →
        condFloatSnapshot gf now = ((gf.value, true), { gf with lastSnap := now }))
    ∧ (¬gf.period ≤ now - gf.lastSnap →
        condFloatSnapshot gf now = ((gf.value, false), gf))
    ∧ (condFloatWritable gf now = true ↔ gf.period ≤ now - gf.lastSnap)
    ∧ condFloatUpdate gf vF = { gf with value := vF } := by
  refine ⟨fun h => ?_, fun h => ?_, ?_, rfl, fun h => ?_, fun h => ?_, ?_, rfl⟩
  · rw [condIntSnapshot, if_pos h]
  · rw [condIntSnapshot, if_neg h]
  · simp [condIntWritable]
  · rw [condFloatSnapshot, if_pos h]
  · rw [condFloatSnapshot, if_neg h]
  · simp [condFloatWritable]

/-- Witness for C5 on concrete conditional scalars with period 60s: a call 60s
after the last accepted snapshot is writable and stamps the gate, a call 59s
after is not and leaves the state alone, and updates replace only the value. -/
theorem c5_witness :
    condIntSnapshot ⟨7, 60000000000, 0⟩ 60000000000
      = ((7, true), ⟨7, 60000000000, 60000000000⟩)
    ∧ condIntSnapshot ⟨7, 60000000000, 1000000000⟩ 60000000000
      = ((7, false), ⟨7, 60000000000, 1000000000⟩)
    ∧ (condIntWritable ⟨7, 60000000000, 0⟩ 60000000000 = true ↔
        (60000000000 : Int) ≤ 60000000000 - 0)
    ∧ condIntUpdate ⟨7, 60000000000, 0⟩ 9 = ⟨9, 60000000000, 0⟩
    ∧ condFloatSnapshot ⟨(1 : ℚ) / 2, 60000000000, 0⟩ 60000000000
      = (((1 : ℚ) / 2, true), ⟨(1 : ℚ) / 2, 60000000000, 60000000000⟩)
    ∧ condFloatSnapshot ⟨(1 : ℚ) / 2, 60000000000, 1000000000⟩ 60000000000
      = (((1 : ℚ) / 2, false), ⟨(1 : ℚ) / 2, 60000000000, 1000000000⟩)
    ∧ (condFloatWritable ⟨(1 : ℚ) / 2, 60000000000, 0⟩ 60000000000 = true ↔
        (60000000000 : Int) ≤ 60000000000 - 0)
    ∧ condFloatUpdate ⟨(1 : ℚ) / 2, 60000000000, 0⟩ 2 = ⟨2, 60000000000, 0⟩ :=
  ⟨(c5_conditional_value ⟨7, 60000000000, 0⟩ ⟨(1 : ℚ) / 2, 60000000000, 0⟩
      60000000000 9 2).1 (by decide),
   (c5_conditional_value ⟨7, 60000000000, 1000000000⟩ ⟨(1 : ℚ) / 2, 60000000000, 1000000000⟩
      60000000000 9 2).2.1 (by decide),
   (c5_conditional_value ⟨7, 60000000000, 0⟩ ⟨(1 : ℚ) / 2, 60000000000, 0⟩
      60000000000 9 2).2.2.1,
   (c5_conditional_value ⟨7, 60000000000, 0⟩ ⟨(1 : ℚ) / 2, 60000000000, 0⟩
      60000000000 9 2).2.2.2.1,
   (c5_conditional_value ⟨7, 60000000000, 0⟩ ⟨(1 : ℚ) / 2, 60000000000, 0⟩
      60000000000 9 2).2.2.2.2.1 (by decide),
   (c5_conditional_value ⟨7, 60000000000, 1000000000⟩ ⟨(1 : ℚ) / 2, 60000000000, 1000000000⟩
      60000000000 9 2).2.2.2.2.2.1 (by decide),
   (c5_conditional_value ⟨7, 60000000000, 0⟩ ⟨(1 : ℚ) / 2, 60000000000, 0⟩
      60000000000 9 2).2.2.2.2.2.2.1,
   (c5_conditional_value ⟨7, 60000000000, 0⟩ ⟨(1 : ℚ) / 2, 60000000000, 0⟩
      60000000000 9 2).2.2.2.2.2.2.2⟩

/-! Helper lemmas for `updateHistoryGo`, `copyInto` and `dmSnapshot`. -/

theorem uhg_preserves (ts : Int) :
    ∀ (entries : List (String × Int)) (g g' : StandardDataMap),
      updateHistoryGo g ts entries = some g' →
      g'.minInterval = g.minInterval ∧ g'.latestSnapshot = g.latestSnapshot ∧
        g'.values = g.values ∧ g'.keyTypes = g.keyTypes ∧
        g'.dependentVars = g.dependentVars ∧ g'.periods = g.periods := by
  intro entries
  induction entries with
  | nil =>
    intro g g' h
    simp only [updateHistoryGo, Option.some.injEq] at h
    subst h
    exact ⟨rfl, rfl, rfl, rfl, rfl, rfl⟩
  | cons hd t ih =>
    intro g g' h
    simp only [updateHistoryGo] at h
    split at h
    · split at h
      · exact absurd h (by simp)
      · simpa using ih _ _ h
    · exact ih _ _ h

theorem uhg_absent (ts : Int) (p : String) :
    ∀ (entries : List (String × Int)) (g g' : StandardDataMap),
      updateHistoryGo g ts entries = some g' →
      p ∉ entries.map Prod.fst →
      AL.lookup g'.valuesHistory p = AL.lookup g.valuesHistory p := by
  intro entries
  induction entries with
  | nil =>
    intro g g' h _
    simp only [updateHistoryGo, Option.some.injEq] at h
    subst h
    rfl
  | cons hd t ih =>
    intro g g' h hp
    have hp1 : hd.1 ≠ p := fun hc => hp (by simp [hc])
    have hp2 : p ∉ t.map Prod.fst := fun hc => hp (by simp [hc])
    simp only [updateHistoryGo] at h
    split at h
    · split at h
      · exact absurd h (by simp)
      · rw [ih _ _ h hp2]
        exact AL.lookup_insert_of_ne _ _ _ _ hp1
    · exact ih _ _ h hp2

theorem uhg_hit (ts : Int) (p : String) :
    ∀ (entries : List (String × Int)) (g g' : StandardDataMap) (nts : Int),
      updateHistoryGo g ts entries = some g' →
      (p, nts) ∈ entries →
      (entries.map Prod.fst).Nodup →
      nts ≤ ts →
      AL.lookup g.valuesHistory p = none →
      AL.lookup g'.valuesHistory p = some (copyInto [] g.values) := by
  intro entries
  induction entries with
  | nil =>
    intro g g' nts _ hm
    exact absurd hm (List.not_mem_nil _)
  | cons hd t ih =>
    intro g g' nts h hm hnd hts habs
    rcases List.mem_cons.mp hm with hm1 | hm2
    · subst hm1
      simp only [updateHistoryGo] at h
      rw [if_pos hts] at h
      split at h
      · exact absurd h (by simp)
      · have hnotin : p ∉ t.map Prod.fst :=
          (List.nodup_cons.mp (show (p :: t.map Prod.fst).Nodup from hnd)).1
        rw [uhg_absent ts p t _ _ h hnotin]
        rw [show AL.lookup
            ({ g with
                valuesHistory := AL.insert g.valuesHistory p
                  (copyInto ((AL.lookup g.valuesHistory p).getD []) g.values),
                nextTs := AL.insert g.nextTs p (nts + Int.tdiv _ 1000000000) } :
              StandardDataMap).valuesHistory p =
            AL.lookup (AL.insert g.valuesHistory p
              (copyInto ((AL.lookup g.valuesHistory p).getD []) g.values)) p from rfl]
        rw [habs]
        exact AL.lookup_insert_self _ _ _
    · have hmem : p ∈ t.map Prod.fst := List.mem_map.mpr ⟨(p, nts), hm2, rfl⟩
      have hndc := List.nodup_cons.mp
        (show (hd.1 :: t.map Prod.fst).Nodup from hnd)
      have hne : hd.1 ≠ p := fun hc => hndc.1 (by rw [hc]; exact hmem)
      have hndt : (t.map Prod.fst).Nodup := hndc.2
      simp only [updateHistoryGo] at h
      split at h
      · split at h
        · exact absurd h (by simp)
        · refine (ih _ _ nts h hm2 hndt hts ?_).trans (by rfl)
          show AL.lookup (AL.insert g.valuesHistory hd.1 _) p = none
          rw [AL.lookup_insert_of_ne _ _ _ _ hne]
          exact habs
      · exact ih _ _ nts h hm2 hndt hts habs

theorem lookup_copyInto_of_none (l : List (String × GoVal)) :
    ∀ (acc : List (String × GoVal)) (k : String),
      AL.lookup l k = none → AL.lookup (copyInto acc l) k = AL.lookup acc k := by
  induction l with
  | nil => intro acc k _; rfl
  | cons hd t ih =>
    intro acc k h
    by_cases hc : hd.1 = k
    · exact absurd h (by simp [AL.lookup, hc])
    · have h2 : AL.lookup t k = none := by
        simpa [AL.lookup, hc] using h
      show AL.lookup (copyInto (AL.insert acc hd.1 hd.2) t) k = AL.lookup acc k
      rw [ih _ _ h2, AL.lookup_insert_of_ne _ _ _ _ hc]

theorem lookup_copyInto_of_some (l : List (String × GoVal)) :
    ∀ (acc : List (String × GoVal)) (k : String) (v : GoVal),
      (l.map Prod.fst).Nodup → AL.lookup l k = some v →
      AL.lookup (copyInto acc l) k = some v := by
  induction l with
  | nil => intro acc k v _ h; exact absurd h (by simp [AL.lookup])
  | cons hd t ih =>
    intro acc k v hnd h
    by_cases hc : hd.1 = k
    · have hv : hd.2 = v := by simpa [AL.lookup, hc] using h
      have htk : AL.lookup t k = none := by
        apply AL.lookup_eq_none_of_not_mem_keys
        have h1 := (List.nodup_cons.mp
          (show (hd.1 :: t.map Prod.fst).Nodup from hnd)).1
        rw [← hc]
        exact h1
      show AL.lookup (copyInto (AL.insert acc hd.1 hd.2) t) k = some v
      rw [lookup_copyInto_of_none t _ k htk, hc, hv]
      exact AL.lookup_insert_self _ _ _
    · have h2 : AL.lookup t k = some v := by simpa [AL.lookup, hc] using h
      exact ih _ _ _ (List.nodup_cons.mp
        (show (hd.1 :: t.map Prod.fst).Nodup from hnd)).2 h2

theorem lookup_copyInto_nil (l : List (String × GoVal)) (k : String)
    (hnd : (l.map Prod.fst).Nodup) :
    AL.lookup (copyInto [] l) k = AL.lookup l k := by
  cases hl : AL.lookup l k with
  | none => rw [lookup_copyInto_of_none l [] k hl]; rfl
  | some v => rw [lookup_copyInto_of_some l [] k v hnd hl]

theorem dmSnapshot_accepted
    (g g' : StandardDataMap) (ms : List (Option Desc)) (now : Int)
    (h : dmSnapshot g now = some (ms, g'))
    (hacc : g.minInterval < now - g.latestSnapshot) :
    ∃ ms1 ms2 dvs,
      metersIndep { g with latestSnapshot := now } g.keyTypes = some ms1 ∧
      metersDep ⟨g.values, g.valuesHistory⟩ now g.dependentVars = some (ms2, dvs) ∧
      ms = ms1 ++ ms2 ∧
      updateHistoryGo { g with latestSnapshot := now, dependentVars := dvs }
        (Int.tdiv now 1000000000) g.nextTs = some g' := by
  unfold dmSnapshot at h
  rw [if_pos hacc] at h
  split at h
  · exact absurd h (by simp)
  · rename_i ms1 heq1
    split at h
    · exact absurd h (by simp)
    · rename_i ms2 dvs heq2
      split at h
      · exact absurd h (by simp)
      · rename_i g3 heq3
        simp only [Option.some.injEq, Prod.mk.injEq] at h
        refine ⟨ms1, ms2, dvs, heq1, heq2, h.1.symm, ?_⟩
        rw [← h.2]
        exact heq3

/-- Counterexample to claim C3: for the store with `minInterval` 60s whose
last snapshot is at instant 0, the call made exactly when `minInterval` has
elapsed (so "at that interval") returns the Go-nil batch and leaves the store
unchanged — the gate is the strict `tm.Sub(latestSnapshot) > minInterval` —
and even the accepted call one nanosecond later returns the Go-nil batch
(the store has nothing to report), contradicting "returns a non-nil
(possibly empty) list". -/
theorem c3_counterexample :
    ((⟨60000000000, 0, [], [], [], 0, [], [], []⟩ : StandardDataMap).minInterval
        = 60000000000 -
          (⟨60000000000, 0, [], [], [], 0, [], [], []⟩ : StandardDataMap).latestSnapshot)
    ∧ dmSnapshot ⟨60000000000, 0, [], [], [], 0, [], [], []⟩ 60000000000
        = some ([], ⟨60000000000, 0, [], [], [], 0, [], [], []⟩)
    ∧ dmSnapshot ⟨60000000000, 0, [], [], [], 0, [], [], []⟩ 60000000001
        = some ([], ⟨60000000000, 60000000001, [], [], [], 0, [], [], []⟩) :=
  ⟨rfl, rfl, rfl⟩

/-- Claim C3 (amended): every `Snapshot` call made while at most `minInterval`
has elapsed since the last accepted snapshot returns the Go-nil batch and
leaves the store unchanged; an accepted call (strictly more than `minInterval`
elapsed) stamps the snapshot time to now, and returns the accumulated
descriptor batch, which is itself Go-nil when the store has no typed key with
a value, no due dependent variable, and no boundary schedule. -/
theorem c3_snapshot_throttle_amended
    (g g' : StandardDataMap) (ms : List (Option Desc)) (now : Int) :
    (now - g.latestSnapshot ≤ g.minInterval → dmSnapshot g now = some ([], g))
    ∧ (dmSnapshot g now = some (ms, g') → g.minInterval < now - g.latestSnapshot →
        g'.latestSnapshot = now)
    ∧ (g.keyTypes = [] → g.dependentVars = [] → g.nextTs = [] →
        g.minInterval < now - g.latestSnapshot →
        dmSnapshot g now = some ([], { g with latestSnapshot := now })) := by
  refine ⟨fun h => ?_, fun h hacc => ?_, fun hk hd hn hacc => ?_⟩
  · unfold dmSnapshot
    rw [if_neg (not_lt.mpr h)]
  · obtain ⟨ms1, ms2, dvs, _, _, _, h4⟩ := dmSnapshot_accepted g g' ms now h hacc
    exact (uhg_preserves _ _ _ _ h4).2.1
  · unfold dmSnapshot updateHistory
    rw [if_pos hacc, hk, hd]
    dsimp only [metersIndep, metersDep, updateHistoryGo]
    rw [hn]
    dsimp only [updateHistoryGo]
    rw [← hd]
    rfl

/-- Witness for C3 (amended) on concrete stores: a call 1s after the last
snapshot (gate 60s) is a no-op; the accepted call at 61s stamps the snapshot
time; and the accepted call on an empty store returns the Go-nil batch. -/
theorem c3_witness :
    dmSnapshot ⟨60000000000, 0, [], [], [], 0, [], [], []⟩ 1000000000
        = some ([], ⟨60000000000, 0, [], [], [], 0, [], [], []⟩)
    ∧ (⟨60000000000, 61000000000, [], [], [], 0, [], [], []⟩ :
          StandardDataMap).latestSnapshot = 61000000000
    ∧ dmSnapshot ⟨60000000000, 0, [], [], [], 0, [], [], []⟩ 61000000000
        = some ([], ⟨60000000000, 61000000000, [], [], [], 0, [], [], []⟩) :=
  ⟨(c3_snapshot_throttle_amended ⟨60000000000, 0, [], [], [], 0, [], [], []⟩
      ⟨60000000000, 0, [], [], [], 0, [], [], []⟩ [] 1000000000).1 (by decide),
   (c3_snapshot_throttle_amended ⟨60000000000, 0, [], [], [], 0, [], [], []⟩
      ⟨60000000000, 61000000000, [], [], [], 0, [], [], []⟩ [] 61000000000).2.1
      rfl (by decide),
   (c3_snapshot_throttle_amended ⟨60000000000, 0, [], [], [], 0, [], [], []⟩
      ⟨60000000000, 61000000000, [], [], [], 0, [], [], []⟩ [] 61000000000).2.2
      rfl rfl rfl (by decide)⟩

/-- Claim C4: `ValueHistory(key, period)` reports `found = false` while the
period has no history table (which is the state before its first boundary has
been processed), and after an accepted `Snapshot` processes the period's
first boundary it reports `found = true` together with the value the key held
at the moment of that snapshot — the whole `values` table having been copied
into the period's history slot. -/
theorem c4_value_history
    (g g' : StandardDataMap) (ms : List (Option Desc)) (now : Int)
    (k p : String) (nts : Int) :
    (AL.lookup g.valuesHistory p = none → dmValueHistory g k p = (none, false))
    ∧ (dmSnapshot g now = some (ms, g') →
        g.minInterval < now - g.latestSnapshot →
        (p, nts) ∈ g.nextTs →
        (g.nextTs.map Prod.fst).Nodup →
        nts ≤ Int.tdiv now 1000000000 →
        AL.lookup g.valuesHistory p = none →
        (g.values.map Prod.fst).Nodup →
        dmValueHistory g' k p = (AL.lookup g.values k, true)) := by
  refine ⟨fun h => ?_, fun h hacc hm hnd hts habs hndv => ?_⟩
  · unfold dmValueHistory
    rw [h]
  · obtain ⟨ms1, ms2, dvs, _, _, _, h4⟩ := dmSnapshot_accepted g g' ms now h hacc
    have hit := uhg_hit (Int.tdiv now 1000000000) p g.nextTs _ g' nts h4 hm hnd hts
      (by exact habs)
    unfold dmValueHistory
    rw [hit]
    dsimp only
    rw [lookup_copyInto_nil g.values k hndv]

/-- Witness for C4 on a concrete store: before any snapshot the period "p"
reports not-found; the accepted snapshot at 61s (boundary 60s) freezes the
value 7 of key "k" into the history of "p", advances the boundary to 120 and
makes `ValueHistory` report it as found. -/
theorem c4_witness :
    dmValueHistory
      ⟨60000000000, 0, [("k", GoVal.i64 7)], [], [], 0, [],
        [("p", 60000000000)], [("p", 60)]⟩ "k" "p" = (none, false)
    ∧ dmValueHistory
      ⟨60000000000, 61000000000, [("k", GoVal.i64 7)], [("p", [("k", GoVal.i64 7)])],
        [], 0, [], [("p", 60000000000)], [("p", 120)]⟩ "k" "p"
      = (some (GoVal.i64 7), true) :=
  ⟨(c4_value_history
      ⟨60000000000, 0, [("k", GoVal.i64 7)], [], [], 0, [],
        [("p", 60000000000)], [("p", 60)]⟩
      ⟨60000000000, 0, [("k", GoVal.i64 7)], [], [], 0, [],
        [("p", 60000000000)], [("p", 60)]⟩ [] 0 "k" "p" 0).1 rfl,
   (c4_value_history
      ⟨60000000000, 0, [("k", GoVal.i64 7)], [], [], 0, [],
        [("p", 60000000000)], [("p", 60)]⟩
      ⟨60000000000, 61000000000, [("k", GoVal.i64 7)], [("p", [("k", GoVal.i64 7)])],
        [], 0, [], [("p", 60000000000)], [("p", 120)]⟩ [] 61000000000 "k" "p" 60).2
      rfl (by decide) (by decide) (by decide) (by decide) rfl (by decide)⟩

/-- Counterexample to claim C6: the first period-counter variant registers a
1-day window by plain modulus of the epoch seconds — at reference instant 0
it schedules the boundary at 86400 (UTC midnight) — whereas local midnight of
the following day at timezone offset +3600s (the spec-modelled
`days.Tomorrow`) is 82800.  So on that period counter the day boundary is a
plain epoch modulus, not the timezone-corrected calendar midnight. -/
theorem c6_counterexample :
    AL.lookup (pcSetPeriodV1 ⟨0, [], [], []⟩ "1d" dayNs 0).nextTs "1d" = some 86400
    ∧ daysTomorrowUnix 0 3600 = 82800
    ∧ (86400 : Int) ≠ 82800 :=
  ⟨by decide, by decide, by decide⟩

/-- Claim C6 (amended): registering a fresh 1-day period on the data map, or
on the second period-counter variant, schedules the next boundary at
`days.Tomorrow` — local-calendar midnight of the following day — while the
first period-counter variant schedules it by the plain modulus
`nts - nts%86400 + 86400` of the epoch seconds. -/
theorem c6_day_alignment_amended
    (g : StandardDataMap) (pc : StandardPeriodCounter) (p : String)
    (tmUnix tmOff nts : Int)
    (hg : AL.lookup g.periods p = none) (hpc : AL.lookup pc.periods p = none) :
    dmSetPeriod g p dayNs tmUnix tmOff
      = some { g with periods := AL.insert g.periods p dayNs,
                      nextTs := AL.insert g.nextTs p (daysTomorrowUnix tmUnix tmOff) }
    ∧ pcSetPeriodV2 pc p dayNs tmUnix tmOff
      = { pc with periods := AL.insert pc.periods p dayNs,
                  nextTs := AL.insert pc.nextTs p (daysTomorrowUnix tmUnix tmOff) }
    ∧ pcSetPeriodV1 pc p dayNs nts
      = { pc with periods := AL.insert pc.periods p dayNs,
                  nextTs := AL.insert pc.nextTs p (nts - Int.tmod nts 86400 + 86400) } := by
  refine ⟨?_, ?_, ?_⟩
  · simp only [dmSetPeriod, hg, Option.isSome_none, Bool.false_eq_true, if_false,
      if_neg (by decide : ¬(dayNs = (0 : Int)))]
    norm_num [dayNs, hourNs, minuteNs, secondNs, m5ns, m15ns, m30ns]
  · simp only [pcSetPeriodV2, hpc, Option.isSome_none, Bool.false_eq_true, if_false,
      if_neg (by decide : ¬(dayNs = (0 : Int)))]
    norm_num [dayNs, hourNs, minuteNs, secondNs, m5ns, m15ns, m30ns]
  · simp only [pcSetPeriodV1, hpc, Option.isSome_none, Bool.false_eq_true, if_false,
      if_neg (by decide : ¬(dayNs = (0 : Int)))]
    norm_num [dayNs, hourNs, minuteNs, secondNs, m5ns, m15ns, m30ns]

/-- Witness for C6 (amended) on fresh instruments at reference instant 0 with
timezone offset +3600s: the data map and the second counter variant schedule
the day boundary at 82800 (local midnight), the first variant at 86400. -/
theorem c6_witness :
    dmSetPeriod ⟨60000000000, 0, [], [], [], 0, [], [], []⟩ "1d" dayNs 0 3600
      = some ⟨60000000000, 0, [], [], [], 0, [], [("1d", dayNs)], [("1d", 82800)]⟩
    ∧ pcSetPeriodV2 ⟨0, [], [], []⟩ "1d" dayNs 0 3600
      = ⟨0, [("1d", dayNs)], [], [("1d", 82800)]⟩
    ∧ pcSetPeriodV1 ⟨0, [], [], []⟩ "1d" dayNs 3600
      = ⟨0, [("1d", dayNs)], [], [("1d", 86400)]⟩ :=
  ⟨(c6_day_alignment_amended ⟨60000000000, 0, [], [], [], 0, [], [], []⟩
      ⟨0, [], [], []⟩ "1d" 0 3600 3600 rfl rfl).1,
   (c6_day_alignment_amended ⟨60000000000, 0, [], [], [], 0, [], [], []⟩
      ⟨0, [], [], []⟩ "1d" 0 3600 3600 rfl rfl).2.1,
   (c6_day_alignment_amended ⟨60000000000, 0, [], [], [], 0, [], [], []⟩
      ⟨0, [], [], []⟩ "1d" 0 3600 3600 rfl rfl).2.2⟩

/-- Counterexample to claim C7: `ValueInt64` of an unregistered key returns
plain 0 with no companion signal — indistinguishable from a stored legitimate
zero — and `ValueHistory` of a key absent from an existing period history
returns `found = true` with a nil value, not a not-found signal. -/
theorem c7_counterexample :
    dmValueInt64 ⟨60000000000, 0, [], [], [], 0, [], [], []⟩ "k" = some 0
    ∧ dmValueInt64 ⟨60000000000, 0, [("k", GoVal.i64 0)], [], [], 0, [], [], []⟩ "k"
      = some 0
    ∧ dmValueHistory ⟨60000000000, 0, [], [("p", [])], [], 0, [], [], []⟩ "k" "p"
      = (none, true) :=
  ⟨rfl, rfl, rfl⟩

/-- Claim C7 (amended): `ValueInt64`/`ValueFloat64` silently return the zero
value for an unknown key, with no companion signal; `ValueHistory` reports
`found = false` only when the period has no history table at all — when the
table exists it reports `found = true` together with the table's entry for
the key, which is nil when the key is absent.  Only the period-level absence
carries an explicit not-found signal. -/
theorem c7_missing_data_amended (g : StandardDataMap) (k p : String) :
    (AL.lookup g.values k = none →
        dmValueInt64 g k = some 0 ∧ dmValueFloat64 g k = some 0)
    ∧ (AL.lookup g.valuesHistory p = none → dmValueHistory g k p = (none, false))
    ∧ (∀ his, AL.lookup g.valuesHistory p = some his →
        dmValueHistory g k p = (AL.lookup his k, true)) := by
  refine ⟨fun h => ⟨?_, ?_⟩, fun h => ?_, fun his h => ?_⟩
  · unfold dmValueInt64
    rw [h]
  · unfold dmValueFloat64
    rw [h]
  · unfold dmValueHistory
    rw [h]
  · unfold dmValueHistory
    rw [h]

/-- Witness for C7 (amended) on concrete stores: the empty store reads int and
float zeroes for an unknown key and not-found history; a store whose period
"p" has history `[("j", 1)]` reports that table's lookup for "k" found. -/
theorem c7_witness :
    dmValueInt64 ⟨60000000000, 0, [], [], [], 0, [], [], []⟩ "k" = some 0
    ∧ dmValueFloat64 ⟨60000000000, 0, [], [], [], 0, [], [], []⟩ "k" = some 0
    ∧ dmValueHistory ⟨60000000000, 0, [], [], [], 0, [], [], []⟩ "k" "p"
      = (none, false)
    ∧ dmValueHistory ⟨60000000000, 0, [], [("p", [("j", GoVal.i64 1)])], [], 0, [], [], []⟩
        "k" "p" = (AL.lookup [("j", GoVal.i64 1)] "k", true) :=
  ⟨((c7_missing_data_amended ⟨60000000000, 0, [], [], [], 0, [], [], []⟩ "k" "p").1 rfl).1,
   ((c7_missing_data_amended ⟨60000000000, 0, [], [], [], 0, [], [], []⟩ "k" "p").1 rfl).2,
   (c7_missing_data_amended ⟨60000000000, 0, [], [], [], 0, [], [], []⟩ "k" "p").2.1 rfl,
   (c7_missing_data_amended
      ⟨60000000000, 0, [], [("p", [("j", GoVal.i64 1)])], [], 0, [], [], []⟩ "k" "p").2.2
      [("j", GoVal.i64 1)] rfl⟩

/-- Counterexample to claim C8: registering the label "w" with a zero duration
on a StandardPeriodCounter (either variant) terminates normally — it silently
deletes the label's registration and boundary instead of panicking. -/
theorem c8_counterexample :
    pcSetPeriodV2 ⟨0, [("w", 60000000000)], [], [("w", 60)]⟩ "w" 0 0 0
      = ⟨0, [], [], []⟩
    ∧ pcSetPeriodV1 ⟨0, [("w", 60000000000)], [], [("w", 60)]⟩ "w" 0 0
      = ⟨0, [], [], []⟩ :=
  ⟨rfl, rfl⟩

/-- Claim C8 (amended): registering a period label with a zero duration
panics on a StandardDataMap, but on a StandardPeriodCounter (either variant)
it instead deletes the label's registration and boundary entry and returns
normally. -/
theorem c8_zero_duration_amended
    (g : StandardDataMap) (pc : StandardPeriodCounter) (p : String)
    (tmUnix tmOff nts : Int) :
    dmSetPeriod g p 0 tmUnix tmOff = none
    ∧ pcSetPeriodV1 pc p 0 nts
      = { pc with periods := AL.eraseKey pc.periods p,
                  nextTs := AL.eraseKey pc.nextTs p }
    ∧ pcSetPeriodV2 pc p 0 tmUnix tmOff
      = { pc with periods := AL.eraseKey pc.periods p,
                  nextTs := AL.eraseKey pc.nextTs p } := by
  refine ⟨?_, ?_, ?_⟩
  · unfold dmSetPeriod
    rw [if_pos rfl]
  · unfold pcSetPeriodV1
    rw [if_pos rfl]
  · unfold pcSetPeriodV2
    rw [if_pos rfl]

/-! StandardGaugeMap (src/gaugemap.go). -/

/-- Read-only view of a gauge map handed to function-valued entries.  In Go a
function receives the live `GaugeMap`; every function in this repository
(see gaugemap_test.go) reads only the scalar entries of `value` and
`valuePrev`, so function values are embedded as functions of that scalar
projection. -/
structure GMView where
  value : List (String × GoVal)
  valuePrev : List (String × GoVal)

/-- Entry of a gauge map's `value` table: an int64, a float64, or one of the
two function kinds admitted by `SetFuncKey` (src/gaugemap.go lines
271-291). -/
inductive GMVal : Type
  | i64 (v : Int)
  | f64 (v : ℚ)
  | intFn (f : GMView → Int)
  | floatFn (f : GMView → ℚ)

/-- Function argument accepted by `SetFuncKey`: `IntValueFunc` or
`FloatValueFunc` (the other input types panic at registration and are not
representable states). -/
inductive GMFn : Type
  | intFn (f : GMView → Int)
  | floatFn (f : GMView → ℚ)

/-- StandardGaugeMap state (src/gaugemap.go lines 149-154): the live value
table, the one-step `valuePrev` lookback table (holding scalars only), and
the `keys` slice, which `NewGaugeMap` (lines 31-38) leaves at its zero value
and which no method ever writes. -/
structure StandardGaugeMap where
  value : List (String × GMVal)
  valuePrev : List (String × GoVal)
  keys : List String

/-- Fresh map built by `NewGaugeMap` (src/gaugemap.go lines 31-38): empty
`value` and `valuePrev` maps, nil `keys` slice. -/
def newGaugeMap : StandardGaugeMap := ⟨[], [], []⟩

/-- Scalar projection of a `value` table (the entries a repository function
can read without panicking). -/
def gmScalars : List (String × GMVal) → List (String × GoVal)
  | [] => []
  | (k, GMVal.i64 v) :: t => (k, GoVal.i64 v) :: gmScalars t
  | (k, GMVal.f64 v) :: t => (k, GoVal.f64 v) :: gmScalars t
  | (_, GMVal.intFn _) :: t => gmScalars t
  | (_, GMVal.floatFn _) :: t => gmScalars t

/-- View of the live gauge map as read by its function-valued entries. -/
def gmScalarView (g : StandardGaugeMap) : GMView :=
  ⟨gmScalars g.value, g.valuePrev⟩

/-- Translation of `StandardGaugeMap.UpdateInt64` (src/gaugemap.go lines
193-205): copy the prior value of the key into `valuePrev` — zero if the key
was unset — then store the new value; the `pv.(int64)` type assertion panics
(`none`) when the prior entry is not an int64. -/
def gmUpdateInt64 (g : StandardGaugeMap) (key : String) (v : Int) :
    Option StandardGaugeMap :=
  match AL.lookup g.value key with
  | some (GMVal.i64 pv) =>
    some { g with
            valuePrev := AL.insert g.valuePrev key (GoVal.i64 pv),
            value := AL.insert g.value key (GMVal.i64 v) }
  | some _ => none
  | none =>
    some { g with
            valuePrev := AL.insert g.valuePrev key (GoVal.i64 0),
            value := AL.insert g.value key (GMVal.i64 v) }

/-- Translation of `StandardGaugeMap.UpdateFloat64` (src/gaugemap.go lines
208-219). -/
def gmUpdateFloat64 (g : StandardGaugeMap) (key : String) (v : ℚ) :
    Option StandardGaugeMap :=
  match AL.lookup g.value key with
  | some (GMVal.f64 pv) =>
    some { g with
            valuePrev := AL.insert g.valuePrev key (GoVal.f64 pv),
            value := AL.insert g.value key (GMVal.f64 v) }
  | some _ => none
  | none =>
    some { g with
            valuePrev := AL.insert g.valuePrev key (GoVal.f64 0),
            value := AL.insert g.value key (GMVal.f64 v) }

/-- Translation of `StandardGaugeMap.SetFuncKey` (src/gaugemap.go lines
271-291): store the function under the key; `keys` and `valuePrev` are
untouched. -/
def gmSetFuncKey (g : StandardGaugeMap) (key : String) (fn : GMFn) :
    StandardGaugeMap :=
  match fn with
  | GMFn.intFn f => { g with value := AL.insert g.value key (GMVal.intFn f) }
  | GMFn.floatFn f => { g with value := AL.insert g.value key (GMVal.floatFn f) }

/-- GaugeMapSnapshot (src/gaugemap.go lines 51-54): immutable split-by-type
maps. -/
structure GaugeMapSnapshot where
  i : List (String × Int)
  f : List (String × ℚ)

/-- Loop of `StandardGaugeMap.Snapshot` (src/gaugemap.go lines 157-190):
scalars are copied verbatim into the matching split map; function entries are
invoked against the live store and their result placed in the matching
map. -/
def gmSnapGo (view : GMView) :
    List (String × GMVal) → GaugeMapSnapshot → GaugeMapSnapshot
  | [], acc => acc
  | (k, GMVal.i64 v) :: t, acc => gmSnapGo view t { acc with i := AL.insert acc.i k v }
  | (k, GMVal.f64 v) :: t, acc => gmSnapGo view t { acc with f := AL.insert acc.f k v }
  | (k, GMVal.intFn fn) :: t, acc =>
    gmSnapGo view t { acc with i := AL.insert acc.i k (fn view) }
  | (k, GMVal.floatFn fn) :: t, acc =>
    gmSnapGo view t { acc with f := AL.insert acc.f k (fn view) }

/-- Translation of `StandardGaugeMap.Snapshot`. -/
def gmSnapshot (g : StandardGaugeMap) : GaugeMapSnapshot :=
  gmSnapGo (gmScalarView g) g.value ⟨[], []⟩

/-- Translation of `StandardGaugeMap.Keys` (src/gaugemap.go lines 266-268):
returns the `keys` slice as is. -/
def gmKeys (g : StandardGaugeMap) : List String :=
  g.keys

/-- Translation of `GaugeMapSnapshot.Keys` (src/gaugemap.go lines 97-105):
the int64 keys followed by the float64 keys. -/
def gmSnapKeys (s : GaugeMapSnapshot) : List String :=
  AL.keys s.i ++ AL.keys s.f

/-- Mutating operations available on a live StandardGaugeMap. -/
inductive GMOp : Type
  | updI (k : String) (v : Int)
  | updF (k : String) (v : ℚ)
  | setFn (k : String) (fn : GMFn)

/-- Application of one gauge-map operation. -/
def gmApplyOp (g : StandardGaugeMap) : GMOp → Option StandardGaugeMap
  | GMOp.updI k v => gmUpdateInt64 g k v
  | GMOp.updF k v => gmUpdateFloat64 g k v
  | GMOp.setFn k fn => some (gmSetFuncKey g k fn)

/-- Application of a sequence of gauge-map operations. -/
def gmApplyOps (g : StandardGaugeMap) : List GMOp → Option StandardGaugeMap
  | [] => some g
  | op :: rest => (gmApplyOp g op).bind (fun g1 => gmApplyOps g1 rest)

/-- Claim C9: each `UpdateInt64` (resp. `UpdateFloat64`) first copies the
key's prior value into `valuePrev` — defaulting to the typed zero when the
key was never set — and then stores the new value; hence after
`UpdateInt64("i",100)`, `UpdateInt64("i",300)`, `UpdateInt64("j",500)` a
function reading the previous-value table during the next snapshot observes
`previous["i"] = 100`. -/
theorem c9_lookback (g : StandardGaugeMap) (key : String) (vI pvI : Int)
    (vF pvF : ℚ) :
    (AL.lookup g.value key = none →
        gmUpdateInt64 g key vI = some
          { g with valuePrev := AL.insert g.valuePrev key (GoVal.i64 0),
                   value := AL.insert g.value key (GMVal.i64 vI) })
    ∧ (AL.lookup g.value key = some (GMVal.i64 pvI) →
        gmUpdateInt64 g key vI = some
          { g with valuePrev := AL.insert g.valuePrev key (GoVal.i64 pvI),
                   value := AL.insert g.value key (GMVal.i64 vI) })
    ∧ (AL.lookup g.value key = none →
        gmUpdateFloat64 g key vF = some
          { g with valuePrev := AL.insert g.valuePrev key (GoVal.f64 0),
                   value := AL.insert g.value key (GMVal.f64 vF) })
    ∧ (AL.lookup g.value key = some (GMVal.f64 pvF) →
        gmUpdateFloat64 g key vF = some
          { g with valuePrev := AL.insert g.valuePrev key (GoVal.f64 pvF),
                   value := AL.insert g.value key (GMVal.f64 vF) })
    ∧ (∀ g1 g2 g3 : StandardGaugeMap,
        gmUpdateInt64 newGaugeMap "i" 100 = some g1 →
        gmUpdateInt64 g1 "i" 300 = some g2 →
        gmUpdateInt64 g2 "j" 500 = some g3 →
        AL.lookup (gmScalarView g3).valuePrev "i" = some (GoVal.i64 100)) := by
  refine ⟨fun h => ?_, fun h => ?_, fun h => ?_, fun h => ?_,
    fun g1 g2 g3 h1 h2 h3 => ?_⟩
  · unfold gmUpdateInt64
    rw [h]
  · unfold gmUpdateInt64
    rw [h]
  · unfold gmUpdateFloat64
    rw [h]
  · unfold gmUpdateFloat64
    rw [h]
  · have e1 : gmUpdateInt64 newGaugeMap "i" 100 =
        some ⟨[("i", GMVal.i64 100)], [("i", GoVal.i64 0)], []⟩ := rfl
    rw [e1] at h1
    injection h1 with h1'
    subst h1'
    have e2 : gmUpdateInt64 ⟨[("i", GMVal.i64 100)], [("i", GoVal.i64 0)], []⟩
        "i" 300 =
        some ⟨[("i", GMVal.i64 300)], [("i", GoVal.i64 100)], []⟩ := rfl
    rw [e2] at h2
    injection h2 with h2'
    subst h2'
    have e3 : gmUpdateInt64 ⟨[("i", GMVal.i64 300)], [("i", GoVal.i64 100)], []⟩
        "j" 500 =
        some ⟨[("i", GMVal.i64 300), ("j", GMVal.i64 500)],
              [("i", GoVal.i64 100), ("j", GoVal.i64 0)], []⟩ := rfl
    rw [e3] at h3
    injection h3 with h3'
    subst h3'
    rfl

/-- Witness for C9: the fresh-key and existing-key update shapes at concrete
inputs, and the concrete three-update scenario leaving
`previous["i"] = 100`. -/
theorem c9_witness :
    gmUpdateInt64 newGaugeMap "i" 100 =
      some ⟨[("i", GMVal.i64 100)], [("i", GoVal.i64 0)], []⟩
    ∧ gmUpdateInt64 ⟨[("i", GMVal.i64 100)], [("i", GoVal.i64 0)], []⟩ "i" 300 =
      some ⟨[("i", GMVal.i64 300)], [("i", GoVal.i64 100)], []⟩
    ∧ gmUpdateFloat64 newGaugeMap "x" 2 =
      some ⟨[("x", GMVal.f64 2)], [("x", GoVal.f64 0)], []⟩
    ∧ gmUpdateFloat64 ⟨[("x", GMVal.f64 2)], [("x", GoVal.f64 0)], []⟩ "x" 3 =
      some ⟨[("x", GMVal.f64 3)], [("x", GoVal.f64 2)], []⟩
    ∧ AL.lookup (gmScalarView
        ⟨[("i", GMVal.i64 300), ("j", GMVal.i64 500)],
         [("i", GoVal.i64 100), ("j", GoVal.i64 0)], []⟩).valuePrev "i"
      = some (GoVal.i64 100) :=
  ⟨(c9_lookback newGaugeMap "i" 100 0 0 0).1 rfl,
   (c9_lookback ⟨[("i", GMVal.i64 100)], [("i", GoVal.i64 0)], []⟩ "i" 300 100 0 0).2.1
      rfl,
   (c9_lookback newGaugeMap "x" 0 0 2 0).2.2.1 rfl,
   (c9_lookback ⟨[("x", GMVal.f64 2)], [("x", GoVal.f64 0)], []⟩ "x" 0 0 3 2).2.2.2.1
      rfl,
   (c9_lookback newGaugeMap "i" 0 0 0 0).2.2.2.2
      ⟨[("i", GMVal.i64 100)], [("i", GoVal.i64 0)], []⟩
      ⟨[("i", GMVal.i64 300)], [("i", GoVal.i64 100)], []⟩
      ⟨[("i", GMVal.i64 300), ("j", GMVal.i64 500)],
       [("i", GoVal.i64 100), ("j", GoVal.i64 0)], []⟩
      rfl rfl rfl⟩

/-! Helper lemmas for C10. -/

theorem gmApplyOp_keys (op : GMOp) (g g' : StandardGaugeMap)
    (h : gmApplyOp g op = some g') : g'.keys = g.keys := by
  cases op with
  | updI k v =>
    simp only [gmApplyOp] at h
    unfold gmUpdateInt64 at h
    split at h
    · injection h with h'
      rw [← h']
    · exact absurd h (by simp)
    · injection h with h'
      rw [← h']
  | updF k v =>
    simp only [gmApplyOp] at h
    unfold gmUpdateFloat64 at h
    split at h
    · injection h with h'
      rw [← h']
    · exact absurd h (by simp)
    · injection h with h'
      rw [← h']
  | setFn k fn =>
    simp only [gmApplyOp] at h
    injection h with h'
    rw [← h']
    cases fn <;> rfl

theorem gmApplyOps_keys (ops : List GMOp) :
    ∀ (g g' : StandardGaugeMap), gmApplyOps g ops = some g' → g'.keys = g.keys := by
  induction ops with
  | nil =>
    intro g g' h
    simp only [gmApplyOps, Option.some.injEq] at h
    rw [← h]
  | cons op rest ih =>
    intro g g' h
    simp only [gmApplyOps] at h
    cases ho : gmApplyOp g op with
    | none =>
      rw [ho] at h
      exact absurd h (by simp)
    | some g1 =>
      rw [ho] at h
      exact (ih g1 g' h).trans (gmApplyOp_keys op g g1 ho)

theorem mem_gmSnapKeys (view : GMView) (k : String) :
    ∀ (l : List (String × GMVal)) (acc : GaugeMapSnapshot),
      k ∈ gmSnapKeys (gmSnapGo view l acc) ↔
        k ∈ gmSnapKeys acc ∨ k ∈ AL.keys l := by
  intro l
  induction l with
  | nil =>
    intro acc
    simp [gmSnapGo, AL.keys]
  | cons hd t ih =>
    intro acc
    obtain ⟨k', val⟩ := hd
    cases val with
    | i64 v =>
      rw [show gmSnapGo view ((k', GMVal.i64 v) :: t) acc =
          gmSnapGo view t { acc with i := AL.insert acc.i k' v } from rfl, ih]
      simp only [gmSnapKeys, List.mem_append]
      rw [AL.mem_keys_insert]
      simp only [AL.keys, List.map_cons, List.mem_cons]
      tauto
    | f64 v =>
      rw [show gmSnapGo view ((k', GMVal.f64 v) :: t) acc =
          gmSnapGo view t { acc with f := AL.insert acc.f k' v } from rfl, ih]
      simp only [gmSnapKeys, List.mem_append]
      rw [AL.mem_keys_insert]
      simp only [AL.keys, List.map_cons, List.mem_cons]
      tauto
    | intFn fn =>
      rw [show gmSnapGo view ((k', GMVal.intFn fn) :: t) acc =
          gmSnapGo view t { acc with i := AL.insert acc.i k' (fn view) } from rfl, ih]
      simp only [gmSnapKeys, List.mem_append]
      rw [AL.mem_keys_insert]
      simp only [AL.keys, List.map_cons, List.mem_cons]
      tauto
    | floatFn fn =>
      rw [show gmSnapGo view ((k', GMVal.floatFn fn) :: t) acc =
          gmSnapGo view t { acc with f := AL.insert acc.f k' (fn view) } from rfl, ih]
      simp only [gmSnapKeys, List.mem_append]
      rw [AL.mem_keys_insert]
      simp only [AL.keys, List.map_cons, List.mem_cons]
      tauto

/-- Claim C10 (implicit): `Keys()` on a live StandardGaugeMap returns the
empty list after any sequence of `UpdateInt64`/`UpdateFloat64`/`SetFuncKey`
operations on a fresh map — the backing `keys` slice is never written —
whereas `Keys()` on a GaugeMapSnapshot lists exactly the int64 and float64
keys captured at snapshot time (every `value` entry lands in one of the two
split maps). -/
theorem c10_keys (ops : List GMOp) (g g' : StandardGaugeMap) (k : String) :
    (gmApplyOps newGaugeMap ops = some g' → gmKeys g' = [])
    ∧ (k ∈ gmSnapKeys (gmSnapshot g) ↔ k ∈ AL.keys g.value) := by
  constructor
  · intro h
    unfold gmKeys
    rw [gmApplyOps_keys ops newGaugeMap g' h]
    rfl
  · unfold gmSnapshot
    rw [mem_gmSnapKeys (gmScalarView g) k g.value ⟨[], []⟩]
    simp [gmSnapKeys, AL.keys]

/-- Witness for C10: after updating two keys and registering a function key
on a fresh gauge map, the live `Keys()` is still empty, while the snapshot of
a one-key map lists that key. -/
theorem c10_witness :
    gmKeys ⟨[("a", GMVal.i64 1), ("b", GMVal.intFn (fun _ => 5))],
            [("a", GoVal.i64 0)], []⟩ = []
    ∧ (("a" : String) ∈ gmSnapKeys (gmSnapshot ⟨[("a", GMVal.i64 1)], [], []⟩) ↔
        ("a" : String) ∈ AL.keys
          ([("a", GMVal.i64 1)] : List (String × GMVal))) :=
  ⟨(c10_keys [GMOp.updI "a" 1, GMOp.setFn "b" (GMFn.intFn (fun _ => 5))]
      newGaugeMap
      ⟨[("a", GMVal.i64 1), ("b", GMVal.intFn (fun _ => 5))],
       [("a", GoVal.i64 0)], []⟩ "a").1 rfl,
   (c10_keys [] ⟨[("a", GMVal.i64 1)], [], []⟩ ⟨[("a", GMVal.i64 1)], [], []⟩
      "a").2⟩
